import Mathlib

/-!
Shallow embedding of the ABC–XYZ classification and stock-policy pipeline of
`src/project/abcxyz_main.py` (the repository MVP-IMEIN-S.A-).

Dates enter the pipeline only through their calendar month (the code resamples
to month ends), so a consumption record is embedded with an absolute month
index `month : ℤ`.  Python floats are embedded as exact rationals `ℚ`; the two
square roots of the policy formulas (`eoq`, safety stock, sample standard
deviation) live in `ℝ` via `Real.sqrt`.  A pandas `NaN` (a missing statistic)
is embedded as `Option.none`.
-/

namespace AbcXyz

/-- One normalized consumption record, `{itemcode, qty, date}` as produced by
`normalize_moves` (lines 90-110): only the month of `date` matters downstream. -/
structure MoveRow where
  itemcode : String
  qty : ℚ
  month : ℤ
deriving DecidableEq

/-- One normalized price-table row, `{itemcode, itemname, avgprice}` as produced
by `normalize_prices` (lines 63-88), de-duplicated by item code. -/
structure PriceRow where
  itemcode : String
  itemname : String
  avgprice : ℚ
deriving DecidableEq

/-! ### Module-level policy constants (lines 26-36) -/

/-- ABC cut points `(0.80, 0.95)` (line 26). -/
def ABC_CUTS : ℚ × ℚ := (0.80, 0.95)

/-- XYZ coefficient-of-variation thresholds `(0.50, 1.00)` (line 27). -/
def XYZ_CUTS : ℚ × ℚ := (0.50, 1.00)

/-- The dictionary `Z_BY_ABC = {"A": 1.96, "B": 1.65, "C": 1.28}` (line 29):
`none` models a key that is absent from the dict. -/
def Z_BY_ABC (a : String) : Option ℚ :=
  if a = "A" then some 1.96 else if a = "B" then some 1.65
  else if a = "C" then some 1.28 else none

/-- The dictionary `Z_BY_XYZ = {"X": 1.65, "Y": 1.44, "Z": 1.28}` (line 30). -/
def Z_BY_XYZ (x : String) : Option ℚ :=
  if x = "X" then some 1.65 else if x = "Y" then some 1.44
  else if x = "Z" then some 1.28 else none

/-- Constant `Z_DEFAULT = 1.65` (line 31). -/
def Z_DEFAULT : ℚ := 1.65

/-- The default lead-time map `{"HELI": 90, "TVH": 45, "NACIONAL": 3}` of
line 289 (`lt_map_default` inside `run`). -/
def LT_BY_SUPPLIER (s : String) : Option ℚ :=
  if s = "HELI" then some 90 else if s = "TVH" then some 45
  else if s = "NACIONAL" then some 3 else none

/-- Constant `LT_DEFAULT = 15` (line 33). -/
def LT_DEFAULT : ℚ := 15

/-- Constant `ORDER_COST = 15000.0` (line 34). -/
def ORDER_COST : ℚ := 15000

/-- Constant `HOLDING_RATE = 0.25` (line 35). -/
def HOLDING_RATE : ℚ := 0.25

/-- Constant `USE_EOQ = True` (line 36). -/
def USE_EOQ : Bool := true

/-! ### Utility functions (lines 46-58) -/

/-- The function `eoq(D, S, H, C)` of lines 46-50: `0.0` when `D <= 0` or
`S <= 0` or `H*C <= 0`, else `((2*D*S)/(H*C)) ** 0.5`. -/
noncomputable def eoq (D S H C : ℚ) : ℝ :=
  if D ≤ 0 ∨ S ≤ 0 ∨ H * C ≤ 0 then 0
  else Real.sqrt (((2 * D * S) / (H * C) : ℚ) : ℝ)

/-- The function `pick_z(a, x)` of lines 52-58: start from `Z_DEFAULT`,
replace by `Z_BY_ABC[a]` when `a` is a key, then take the max with
`Z_BY_XYZ[x]` when `x` is a key. -/
def pick_z (a x : String) : ℚ :=
  let z := match Z_BY_ABC a with | some v => v | none => Z_DEFAULT
  match Z_BY_XYZ x with | some v => max z v | none => z

/-! ### Input normalization of single cells (lines 84 and 107)

`pd.to_numeric(col, errors="coerce")` maps a missing or non-numeric cell to
`NaN`; that outcome is embedded as `none`, a numeric cell as `some q`. -/

/-- Price-cell normalization of `normalize_prices` line 84:
`to_numeric(...).fillna(1.0).clip(lower=0.0)`. -/
def normalizePriceCell (cell : Option ℚ) : ℚ := max (cell.getD 1) 0

/-- Quantity-cell normalization of `normalize_moves` line 107:
`to_numeric(...).fillna(0).clip(lower=0)`. -/
def normalizeQtyCell (cell : Option ℚ) : ℚ := max (cell.getD 0) 0

/-! ### Supplier resolution (lines 282-287) -/

/-- A regex word character (`\w`, ASCII): letters, digits, underscore. -/
def wordChar (c : Char) : Bool := c.isAlphanum || c = '_'

/-- Whether the char list starts with `heli` followed by a word boundary. -/
def heliAt : List Char → Bool
  | 'h' :: 'e' :: 'l' :: 'i' :: rest =>
      match rest with
      | [] => true
      | c :: _ => !wordChar c
  | _ => false

/-- Scan for an occurrence of the word `heli`: the flag records whether the
previous character was a word character (so the occurrence must start at a
word boundary). -/
def heliScan : Bool → List Char → Bool
  | _, [] => false
  | prevW, c :: rest => (!prevW && heliAt (c :: rest)) || heliScan (wordChar c) rest

/-- The mask of line 284: `item_name.str.contains(r"\bheli\b", case=False)` —
the name contains `heli` as a whole word, case-insensitively. -/
def name_contains_heli (s : String) : Bool :=
  heliScan false (s.toList.map Char.toLower)

/-- Supplier resolution of lines 285-287: default `NACIONAL`, overridden to
`TVH` by membership in the TVH set, overridden last (highest priority) to
`HELI` by membership in the HELI set or the whole-word name match. -/
def supplier_of (heliSet tvhSet : List String) (code name : String) : String :=
  if code ∈ heliSet ∨ name_contains_heli name then "HELI"
  else if code ∈ tvhSet then "TVH"
  else "NACIONAL"

/-- Lead time by supplier, lines 289-301 in the default configuration (no
`config.yaml` present): `supplier.map(lt_map_default).fillna(LT_DEFAULT)`. -/
def lead_time_of (s : String) : ℚ :=
  match LT_BY_SUPPLIER s with | some v => v | none => LT_DEFAULT

/-! ### The core `run` pipeline (lines 226-331) -/

/-- Merged unit price of an item code: the left merge of line 235 with
`fillna(1.0)` of line 236, after the `clip(lower=0.0)` of line 233.
`find?` returns the first matching row, as `drop_duplicates` keeps it. -/
def priceOf (prices : List PriceRow) (code : String) : ℚ :=
  match prices.find? (fun p => p.itemcode == code) with
  | some p => max p.avgprice 0
  | none => 1

/-- Item name of an item code from the price table (merged at line 235,
aggregated by `first` at line 241); an item absent from the table has no name. -/
def nameOf (prices : List PriceRow) (code : String) : String :=
  match prices.find? (fun p => p.itemcode == code) with
  | some p => p.itemname
  | none => ""

/-- The distinct item codes of the consumption data in ascending order:
pandas `groupby("itemcode")` sorts the group keys (lines 240, 253). -/
def keysSorted (moves : List MoveRow) : List String :=
  List.insertionSort (· ≤ ·) ((moves.map (fun m => m.itemcode)).dedup)

/-- Per-SKU consumption value: the grouped sum of `valor = qty * avgprice`
(lines 237, 240-243). -/
def valorOf (prices : List PriceRow) (moves : List MoveRow) (code : String) : ℚ :=
  ((moves.filter (fun m => m.itemcode == code)).map
    (fun m => m.qty * priceOf prices m.itemcode)).sum

/-- The `sort_values("valor", ascending=False)` of line 244 on the
`(itemcode, valor)` pairs. -/
def sortValDesc (l : List (String × ℚ)) : List (String × ℚ) :=
  List.insertionSort (fun p q => q.2 ≤ p.2) l

/-- The aggregated value table `agg` of lines 240-245: one `(itemcode, valor)`
pair per SKU, sorted descending by value. -/
def aggList (prices : List PriceRow) (moves : List MoveRow) : List (String × ℚ) :=
  sortValDesc ((keysSorted moves).map (fun c => (c, valorOf prices moves c)))

/-- Total value `total_valor = agg["valor"].sum()` of line 246. -/
def total_valor (prices : List PriceRow) (moves : List MoveRow) : ℚ :=
  ((aggList prices moves).map (fun p => p.2)).sum

/-- The cumulative-share column of line 247:
`agg["pct"] = agg["valor"].cumsum()/total_valor if total_valor > 0 else 0.0`.
The accumulator carries the cumulative sum of the earlier rows. -/
def pctEntries (total : ℚ) : ℚ → List (String × ℚ) → List (String × ℚ)
  | _, [] => []
  | acc, p :: rest =>
      (p.1, if 0 < total then (acc + p.2) / total else 0) :: pctEntries total (acc + p.2) rest

/-- The `pd.cut` of line 249: bins `[0, 0.80, 0.95, 1]` with
`include_lowest=True`, labels `A`, `B`, `C`; a value outside `[0, 1]` falls in
no bin (`NaN`, rendered `"nan"` by `astype(str)`). -/
def abcClass (pct : ℚ) : String :=
  if pct < 0 then "nan"
  else if pct ≤ ABC_CUTS.1 then "A"
  else if pct ≤ ABC_CUTS.2 then "B"
  else if pct ≤ 1 then "C"
  else "nan"

/-- The classified value table: one `(itemcode, pct, ABC)` triple per SKU in
descending-value order (lines 240-249). -/
def abcTable (prices : List PriceRow) (moves : List MoveRow) : List (String × ℚ × String) :=
  (pctEntries (total_valor prices moves) 0 (aggList prices moves)).map
    (fun e => (e.1, e.2, abcClass e.2))

/-- ABC class of one item code (the reindex of line 270). -/
def abcOf (prices : List PriceRow) (moves : List MoveRow) (code : String) : String :=
  match (abcTable prices moves).find? (fun e => e.1 == code) with
  | some e => e.2.2
  | none => "nan"

/-! ### Monthly demand series (lines 252-255)

`issues.set_index("date").groupby("itemcode")["qty"].resample("ME").sum()`
gives, per SKU, a dense month series from that SKU's own first to last
observed month; `.unstack(fill_value=0)` then widens every SKU to the union
of those per-SKU ranges, filling absent months with 0. -/

/-- Months of the records of one SKU (with repetitions). -/
def monthsOf (moves : List MoveRow) (code : String) : List ℤ :=
  (moves.filter (fun m => m.itemcode == code)).map (fun m => m.month)

/-- Minimum of a list of months (`0` for an empty list, unused case). -/
def minMonth : List ℤ → ℤ
  | [] => 0
  | [m] => m
  | m :: b :: rest => min m (minMonth (b :: rest))

/-- Maximum of a list of months (`0` for an empty list, unused case). -/
def maxMonth : List ℤ → ℤ
  | [] => 0
  | [m] => m
  | m :: b :: rest => max m (maxMonth (b :: rest))

/-- All months from `a` to `b` inclusive (the per-group `resample("ME")` index). -/
def monthRange (a b : ℤ) : List ℤ :=
  (List.range (b + 1 - a).toNat).map (fun i : ℕ => a + (i : ℤ))

/-- The column index of the unstacked frame `mens`: the union over SKUs of each
SKU's dense month range, in ascending order. -/
def colsOf (moves : List MoveRow) : List ℤ :=
  List.insertionSort (· ≤ ·)
    (((keysSorted moves).flatMap
      (fun c => monthRange (minMonth (monthsOf moves c)) (maxMonth (monthsOf moves c)))).dedup)

/-- The summed quantity of one SKU in one month (0 when the SKU
has no record in that month, the `fill_value=0` of line 255). -/
def mensVal (moves : List MoveRow) (code : String) (m : ℤ) : ℚ :=
  ((moves.filter (fun mv => mv.itemcode == code && mv.month == m)).map
    (fun mv => mv.qty)).sum

/-- The monthly demand series of one SKU over the global column index. -/
def seriesOf (moves : List MoveRow) (code : String) : List ℚ :=
  (colsOf moves).map (mensVal moves code)

/-! ### Per-SKU statistics (lines 256-258, 267-268) -/

/-- Row mean `mens.mean(axis=1)` (0 for an empty series, unused case). -/
def meanQ (l : List ℚ) : ℚ := l.sum / (l.length : ℚ)

/-- Sample variance with the N−1 divisor; `none` (pandas `NaN`) for fewer than
2 observations, as `mens.std(axis=1, ddof=1)` yields. -/
def sampleVar (l : List ℚ) : Option ℚ :=
  if l.length < 2 then none
  else some (((l.map (fun x => (x - meanQ l) ^ 2)).sum) / ((l.length : ℚ) - 1))

/-- Sample standard deviation `mens.std(axis=1, ddof=1)` (line 257). -/
noncomputable def sampleStd (l : List ℚ) : Option ℝ :=
  (sampleVar l).map (fun v : ℚ => Real.sqrt ((v : ℚ) : ℝ))

/-- The coefficient of variation of lines 256-258:
`mean = mens.mean(axis=1).replace(0, nan)`, `cv = (std/mean)` with infinities
replaced by `NaN`; `none` models `NaN`. -/
noncomputable def cvOf (moves : List MoveRow) (code : String) : Option ℝ :=
  let s := seriesOf moves code
  if meanQ s = 0 then none
  else (sampleStd s).map (fun sd => sd / ((meanQ s : ℚ) : ℝ))

/-- The XYZ class of lines 259-261: default `Z`; `X` where `cv <= 0.50`;
`Y` where `0.50 < cv <= 1.00`. -/
noncomputable def xyzOf (moves : List MoveRow) (code : String) : String :=
  match cvOf moves code with
  | none => "Z"
  | some cv =>
      if cv ≤ ((XYZ_CUTS.1 : ℚ) : ℝ) then "X"
      else if cv ≤ ((XYZ_CUTS.2 : ℚ) : ℝ) then "Y"
      else "Z"

/-! ### The master table (lines 264-331) -/

/-- One row of the `master` frame: the per-SKU profile with every column the
code adds (lines 264-320). `BelowROP` is the comparison `OnHand < ROP`. -/
structure SkuProfile where
  item_code : String
  item_name : String
  monthly_mean : ℚ
  monthly_std : Option ℝ
  annual_qty : ℚ
  ABC : String
  XYZ : String
  unit_cost : ℚ
  ACV : ℚ
  z_level : ℚ
  lead_time_days : ℚ
  supplier : String
  SS : ℝ
  ROP : ℝ
  EOQ : ℝ
  SMIN : ℝ
  SMAX : ℝ
  OnHand : ℝ
  BelowROP : Prop

/-- The profile of one SKU: the columns of `master` evaluated at one item code
(lines 264-320, with the default lead-time configuration). -/
noncomputable def profileOf (prices : List PriceRow) (moves : List MoveRow)
    (heliSet tvhSet : List String) (code : String) : SkuProfile :=
  let s := seriesOf moves code
  let mmean := meanQ s
  let mstd := sampleStd s
  let aqty := s.sum
  let a := abcOf prices moves code
  let x := xyzOf moves code
  let ucost := priceOf prices code
  let name := nameOf prices code
  let supp := supplier_of heliSet tvhSet code name
  let lt := lead_time_of supp
  let z := pick_z a x
  let daily_mean : ℝ := ((mmean : ℚ) : ℝ) / 30
  let daily_std : Option ℝ := mstd.map (fun v => v / 30)
  let ss : ℝ := ((z : ℚ) : ℝ) * Real.sqrt ((lt : ℚ) : ℝ) * daily_std.getD 0
  let rop : ℝ := daily_mean * ((lt : ℚ) : ℝ) + ss
  let e : ℝ := if USE_EOQ then eoq aqty ORDER_COST HOLDING_RATE ucost else 0
  { item_code := code
    item_name := name
    monthly_mean := mmean
    monthly_std := mstd
    annual_qty := aqty
    ABC := a
    XYZ := x
    unit_cost := ucost
    ACV := aqty * ucost
    z_level := z
    lead_time_days := lt
    supplier := supp
    SS := ss
    ROP := rop
    EOQ := e
    SMIN := rop
    SMAX := rop + e
    OnHand := 0
    BelowROP := (0 : ℝ) < rop }

/-- The pipeline core of `run`: one `SkuProfile` per SKU seen in the
consumption data (the index of `mens`, line 265). -/
noncomputable def run (prices : List PriceRow) (moves : List MoveRow)
    (heliSet tvhSet : List String) : List SkuProfile :=
  (keysSorted moves).map (profileOf prices moves heliSet tvhSet)

/-- The columns of `master` after `reset_index()` (line 327), in construction
order (lines 264-320). -/
def masterColumns : List String :=
  ["item_code", "item_name", "monthly_mean", "monthly_std", "annual_qty",
   "ABC", "XYZ", "unit_cost", "ACV", "z_level", "lead_time_days", "supplier",
   "SS", "ROP", "EOQ", "SMIN", "SMAX", "OnHand", "BelowROP"]

/-- The columns of the emitted `master_out` table: line 329 drops the
`supplier` column before any output is written. -/
def masterOutColumns : List String :=
  masterColumns.filter (fun c => !(c == "supplier"))

/-- The columns of the emitted `reorder_alerts` subset (lines 330-331): the
`master_out` columns plus `SuggestedOrderQty`. -/
def alertsOutColumns : List String :=
  masterOutColumns ++ ["SuggestedOrderQty"]

/-- Modelled from the spec wording of C9 only (a definition the claim asserts,
not one the code computes): the union of all observed months, in ascending
order. -/
def specGlobalMonths (moves : List MoveRow) : List ℤ :=
  List.insertionSort (· ≤ ·) ((moves.map (fun m => m.month)).dedup)

/-! ### Helper lemmas -/

/-- Supplier resolution returns one of the three known suppliers. -/
lemma supplier_of_trichotomy (heliSet tvhSet : List String) (code name : String) :
    supplier_of heliSet tvhSet code name = "HELI"
    ∨ supplier_of heliSet tvhSet code name = "TVH"
    ∨ supplier_of heliSet tvhSet code name = "NACIONAL" := by
  unfold supplier_of
  split_ifs <;> simp

/-- The supplier field of a profile is the resolution of `supplier_of` on the
item code and its price-table name. -/
lemma profileOf_supplier (prices : List PriceRow) (moves : List MoveRow)
    (heliSet tvhSet : List String) (code : String) :
    (profileOf prices moves heliSet tvhSet code).supplier
      = supplier_of heliSet tvhSet code (nameOf prices code) := by
  simp [profileOf]

/-! ### Claim theorems -/

/-- C2: for every SKU, the policy outputs satisfy
`SS = z_level * sqrt(lead_time_days) * daily_std` and
`ROP = daily_mean * lead_time_days + SS`, with `daily_mean = monthly_mean / 30`
and `daily_std = monthly_std / 30`, a missing monthly std being treated as 0. -/
theorem policy_ss_rop_spec (prices : List PriceRow) (moves : List MoveRow)
    (heliSet tvhSet : List String) (code : String) :
    (profileOf prices moves heliSet tvhSet code).SS
      = ((profileOf prices moves heliSet tvhSet code).z_level : ℝ)
        * Real.sqrt ((profileOf prices moves heliSet tvhSet code).lead_time_days : ℝ)
        * ((profileOf prices moves heliSet tvhSet code).monthly_std.getD 0 / 30)
    ∧ (profileOf prices moves heliSet tvhSet code).ROP
      = ((profileOf prices moves heliSet tvhSet code).monthly_mean : ℝ) / 30
        * ((profileOf prices moves heliSet tvhSet code).lead_time_days : ℝ)
        + (profileOf prices moves heliSet tvhSet code).SS := by
  constructor
  · simp only [profileOf]
    cases hs : sampleStd (seriesOf moves code) <;> simp [hs]
  · simp [profileOf]

/-- C4: `EOQ = sqrt((2*D*S)/(H*C))` with `S = ORDER_COST = 15000` and
`H = HOLDING_RATE = 0.25` exactly when `D > 0`, `S > 0` and `H*C > 0`, and
`EOQ = 0` otherwise; in particular `EOQ` is 0 whenever `D = 0`, `S = 0` or
`H = 0`, and each profile computes its `EOQ` this way from its annual
quantity and unit cost. -/
theorem eoq_guard_spec :
    (∀ D S H C : ℚ, eoq D S H C =
        if 0 < D ∧ 0 < S ∧ 0 < H * C
        then Real.sqrt (((2 * D * S) / (H * C) : ℚ) : ℝ) else 0)
    ∧ (∀ S H C : ℚ, eoq 0 S H C = 0)
    ∧ (∀ D H C : ℚ, eoq D 0 H C = 0)
    ∧ (∀ D S C : ℚ, eoq D S 0 C = 0)
    ∧ ORDER_COST = 15000 ∧ HOLDING_RATE = 0.25
    ∧ (∀ (prices : List PriceRow) (moves : List MoveRow)
        (heliSet tvhSet : List String) (code : String),
        (profileOf prices moves heliSet tvhSet code).EOQ
          = eoq (profileOf prices moves heliSet tvhSet code).annual_qty
              ORDER_COST HOLDING_RATE
              (profileOf prices moves heliSet tvhSet code).unit_cost) := by
  refine ⟨?_, ?_, ?_, ?_, rfl, by norm_num [HOLDING_RATE], ?_⟩
  · intro D S H C
    unfold eoq
    split_ifs with h1 h2 h3 <;> try rfl
    · rcases h1 with h | h | h <;> rcases h2 with ⟨hD, hS, hHC⟩ <;> linarith
    · push_neg at h1
      exact absurd ⟨h1.1, h1.2.1, h1.2.2⟩ h3
  · intro S H C; simp [eoq]
  · intro D H C; simp [eoq]
  · intro D S C; simp [eoq]
  · intro prices moves heliSet tvhSet code
    simp [profileOf, USE_EOQ]

/-- C5: over the whole 3x3 grid the z-score is the maximum of the two table
entries, `z_by_abc = {A: 1.96, B: 1.65, C: 1.28}` and
`z_by_xyz = {X: 1.65, Y: 1.44, Z: 1.28}`; in particular `(A, Z)` gives 1.96
and `(C, X)` gives 1.65. -/
theorem pick_z_grid_spec :
    pick_z "A" "X" = max 1.96 1.65 ∧ pick_z "A" "Y" = max 1.96 1.44
    ∧ pick_z "A" "Z" = max 1.96 1.28
    ∧ pick_z "B" "X" = max 1.65 1.65 ∧ pick_z "B" "Y" = max 1.65 1.44
    ∧ pick_z "B" "Z" = max 1.65 1.28
    ∧ pick_z "C" "X" = max 1.28 1.65 ∧ pick_z "C" "Y" = max 1.28 1.44
    ∧ pick_z "C" "Z" = max 1.28 1.28
    ∧ pick_z "A" "Z" = 1.96 ∧ pick_z "C" "X" = 1.65 := by
  refine ⟨?_, ?_, ?_, ?_, ?_, ?_, ?_, ?_, ?_, ?_, ?_⟩ <;>
    simp +decide [pick_z, Z_BY_ABC, Z_BY_XYZ, Z_DEFAULT] <;> norm_num

/-- C8: a missing or non-numeric price cell is coerced to 1.0 and a missing or
non-numeric quantity cell to 0 (never an error), and the pipeline still emits
exactly one profile per SKU seen in the consumption data. -/
theorem missing_cell_coercion_spec :
    normalizePriceCell none = 1
    ∧ normalizeQtyCell none = 0
    ∧ (∀ q : ℚ, normalizePriceCell (some q) = max q 0
        ∧ normalizeQtyCell (some q) = max q 0)
    ∧ (∀ (prices : List PriceRow) (moves : List MoveRow)
        (heliSet tvhSet : List String),
        (run prices moves heliSet tvhSet).map (fun p => p.item_code)
          = keysSorted moves) := by
  refine ⟨by norm_num [normalizePriceCell], by norm_num [normalizeQtyCell],
    fun q => ⟨rfl, rfl⟩, ?_⟩
  intro prices moves heliSet tvhSet
  unfold run
  rw [List.map_map]
  have : ((fun p : SkuProfile => p.item_code) ∘ profileOf prices moves heliSet tvhSet)
      = fun c => c := by
    funext c
    simp [profileOf]
  rw [this]
  exact List.map_id _

/-- C10 counterexample: the emitted per-SKU output table and the reorder-alert
subset do not carry a supplier column at all (line 329 drops it). -/
theorem supplier_column_dropped_cex :
    "supplier" ∉ masterOutColumns ∧ "supplier" ∉ alertsOutColumns := by
  decide

/-- C10 amended: every internally computed profile carries a supplier in
{HELI, TVH, NACIONAL} and the internal master table has a supplier column,
but the emitted per-SKU output table and reorder-alert subset drop the
supplier column (keeping only its derived `lead_time_days`). -/
theorem supplier_attribute_amended :
    (∀ (prices : List PriceRow) (moves : List MoveRow)
        (heliSet tvhSet : List String) (code : String),
        (profileOf prices moves heliSet tvhSet code).supplier
          ∈ (["HELI", "TVH", "NACIONAL"] : List String))
    ∧ "supplier" ∈ masterColumns
    ∧ "supplier" ∉ masterOutColumns
    ∧ "supplier" ∉ alertsOutColumns
    ∧ alertsOutColumns = masterOutColumns ++ ["SuggestedOrderQty"] := by
  refine ⟨?_, by decide, by decide, by decide, rfl⟩
  intro prices moves heliSet tvhSet code
  rw [profileOf_supplier]
  rcases supplier_of_trichotomy heliSet tvhSet code (nameOf prices code) with h | h | h <;>
    simp [h]

/-- C6: the resolved supplier is `NACIONAL` by default, `TVH` on TVH-set
membership, and `HELI` — with priority over TVH — on HELI-set membership or a
whole-word, case-insensitive `heli` in the item name; a name containing
`HELICAL` does not trigger the HELI rule while `HELI PUMP` does, and each
profile resolves its supplier this way from its price-table name. -/
theorem supplier_resolution_spec :
    (∀ (heliSet tvhSet : List String) (code name : String),
        (supplier_of heliSet tvhSet code name = "HELI"
          ↔ code ∈ heliSet ∨ name_contains_heli name = true)
        ∧ (supplier_of heliSet tvhSet code name = "TVH"
          ↔ code ∈ tvhSet ∧ code ∉ heliSet ∧ ¬ name_contains_heli name = true)
        ∧ (supplier_of heliSet tvhSet code name = "NACIONAL"
          ↔ code ∉ tvhSet ∧ code ∉ heliSet ∧ ¬ name_contains_heli name = true))
    ∧ name_contains_heli "HELICAL" = false
    ∧ name_contains_heli "HELI PUMP" = true
    ∧ supplier_of [] ["T1"] "T1" "HELICAL" = "TVH"
    ∧ supplier_of [] ["T1"] "T1" "HELI PUMP" = "HELI"
    ∧ supplier_of ["B2"] ["B2"] "B2" "" = "HELI"
    ∧ (∀ (prices : List PriceRow) (moves : List MoveRow)
        (heliSet tvhSet : List String) (code : String),
        (profileOf prices moves heliSet tvhSet code).supplier
          = supplier_of heliSet tvhSet code (nameOf prices code)) := by
  refine ⟨?_, by decide, by decide, by decide, by decide, by decide,
    profileOf_supplier⟩
  intro heliSet tvhSet code name
  unfold supplier_of
  split_ifs with h1 h2 <;>
    refine ⟨?_, ?_, ?_⟩ <;> simp only [String.reduceEq] <;>
    try push_neg at h1
  all_goals tauto

/-- Whether the sample variance is defined depends only on the series length. -/
lemma sampleVar_eq_none_iff (l : List ℚ) : sampleVar l = none ↔ l.length < 2 := by
  unfold sampleVar
  split_ifs with h <;> simp [h]

/-- The sample variance, when defined, is the N−1 formula. -/
lemma sampleVar_eq_some (l : List ℚ) (v : ℚ) (h : sampleVar l = some v) :
    v = ((l.map (fun x => (x - meanQ l) ^ 2)).sum) / ((l.length : ℚ) - 1) := by
  unfold sampleVar at h
  split_ifs at h with hl
  exact (Option.some.inj h).symm

/-- Whether the sample standard deviation is defined depends only on the
series length. -/
lemma sampleStd_eq_none_iff (l : List ℚ) : sampleStd l = none ↔ l.length < 2 := by
  unfold sampleStd
  cases hv : sampleVar l <;>
    simp_all [← sampleVar_eq_none_iff l, hv]

/-- C3: per SKU, over its dense monthly series, CV is undefined when the mean
is 0 or the sample standard deviation (N−1 divisor) is undefined (fewer than
2 months), CV = std/mean otherwise, and the XYZ class is Z when CV is
undefined or CV > 1, X when CV ≤ 0.50, Y when 0.50 < CV ≤ 1.00. -/
theorem xyz_classification_spec (moves : List MoveRow) (code : String) :
    (cvOf moves code = none
      ↔ meanQ (seriesOf moves code) = 0 ∨ (seriesOf moves code).length < 2)
    ∧ (∀ v : ℝ, cvOf moves code = some v →
        v = Real.sqrt (((((seriesOf moves code).map
              (fun x => (x - meanQ (seriesOf moves code)) ^ 2)).sum
            / (((seriesOf moves code).length : ℚ) - 1) : ℚ)) : ℝ)
          / ((meanQ (seriesOf moves code) : ℚ) : ℝ))
    ∧ (xyzOf moves code = "Z"
      ↔ cvOf moves code = none ∨ ∃ v, cvOf moves code = some v ∧ (1 : ℝ) < v)
    ∧ (xyzOf moves code = "X" ↔ ∃ v, cvOf moves code = some v ∧ v ≤ (0.5 : ℝ))
    ∧ (xyzOf moves code = "Y"
      ↔ ∃ v, cvOf moves code = some v ∧ (0.5 : ℝ) < v ∧ v ≤ (1 : ℝ)) := by
  have hcut1 : ((XYZ_CUTS.1 : ℚ) : ℝ) = (0.5 : ℝ) := by norm_num [XYZ_CUTS]
  have hcut2 : ((XYZ_CUTS.2 : ℚ) : ℝ) = (1 : ℝ) := by norm_num [XYZ_CUTS]
  refine ⟨?_, ?_, ?_, ?_, ?_⟩
  · unfold cvOf
    by_cases hm : meanQ (seriesOf moves code) = 0
    · simp [hm]
    · simp [hm, sampleStd_eq_none_iff]
  · intro v hv
    unfold cvOf at hv
    by_cases hm : meanQ (seriesOf moves code) = 0
    · simp [hm] at hv
    · simp only [hm, if_false, if_neg hm] at hv
      obtain ⟨sd, hsd, hval⟩ := Option.map_eq_some'.mp hv
      unfold sampleStd at hsd
      obtain ⟨var, hvar, hsq⟩ := Option.map_eq_some'.mp hsd
      rw [← hval, ← hsq, sampleVar_eq_some _ _ hvar]
  · unfold xyzOf
    cases hcv : cvOf moves code with
    | none => simp
    | some v =>
        dsimp only
        rw [hcut1, hcut2]
        split_ifs with hx hy <;> simp
        · linarith
        · exact hy
        · exact not_le.mp hy
  · unfold xyzOf
    cases hcv : cvOf moves code with
    | none => simp
    | some v =>
        dsimp only
        rw [hcut1, hcut2]
        split_ifs with hx hy <;> simp
        · exact hx
        · exact not_le.mp hx
        · exact not_le.mp hx
  · unfold xyzOf
    cases hcv : cvOf moves code with
    | none => simp
    | some v =>
        dsimp only
        rw [hcut1, hcut2]
        split_ifs with hx hy <;> simp
        · exact fun h => absurd hx (not_le.mpr h)
        · exact ⟨not_le.mp hx, hy⟩
        · exact fun _ => not_le.mp hy

/-- Membership in the sorted key list is being the item code of some record. -/
lemma mem_keysSorted {moves : List MoveRow} {c : String} :
    c ∈ keysSorted moves ↔ ∃ m ∈ moves, m.itemcode = c := by
  unfold keysSorted
  rw [List.mem_insertionSort, List.mem_dedup, List.mem_map]

/-- The minimum month is a lower bound. -/
lemma minMonth_le_of_mem : ∀ (l : List ℤ) (x : ℤ), x ∈ l → minMonth l ≤ x
  | [m], x, hx => by
      simp only [List.mem_singleton] at hx
      simp [minMonth, hx]
  | m :: b :: rest, x, hx => by
      rcases List.mem_cons.mp hx with rfl | hx2
      · simp [minMonth]
      · have h := minMonth_le_of_mem (b :: rest) x hx2
        calc minMonth (m :: b :: rest) ≤ minMonth (b :: rest) := min_le_right _ _
          _ ≤ x := h

/-- The maximum month is an upper bound. -/
lemma le_maxMonth_of_mem : ∀ (l : List ℤ) (x : ℤ), x ∈ l → x ≤ maxMonth l
  | [m], x, hx => by
      simp only [List.mem_singleton] at hx
      simp [maxMonth, hx]
  | m :: b :: rest, x, hx => by
      rcases List.mem_cons.mp hx with rfl | hx2
      · simp [maxMonth]
      · have h := le_maxMonth_of_mem (b :: rest) x hx2
        calc x ≤ maxMonth (b :: rest) := h
          _ ≤ maxMonth (m :: b :: rest) := le_max_right _ _

/-- Membership in a month range is exactly lying between its bounds. -/
lemma mem_monthRange (a b x : ℤ) : x ∈ monthRange a b ↔ a ≤ x ∧ x ≤ b := by
  unfold monthRange
  simp only [List.mem_map, List.mem_range]
  constructor
  · rintro ⟨i, hi, rfl⟩
    omega
  · rintro ⟨h1, h2⟩
    exact ⟨(x - a).toNat, by omega, by omega⟩

/-- The column index contains exactly the months lying in some SKU's span. -/
lemma mem_colsOf {moves : List MoveRow} {x : ℤ} :
    x ∈ colsOf moves ↔ ∃ c ∈ keysSorted moves,
      minMonth (monthsOf moves c) ≤ x ∧ x ≤ maxMonth (monthsOf moves c) := by
  unfold colsOf
  rw [List.mem_insertionSort, List.mem_dedup, List.mem_flatMap]
  simp only [mem_monthRange]

/-- C9 amended: all per-SKU monthly series are indexed by one shared ascending
duplicate-free column list — the union over SKUs of each SKU's dense month
range from its own first to its own last observed month (not of the set of
all observed months) — every observed month is a column, every series has the
columns' length, and a series entry is the summed quantity of its SKU in that
month (0 when the SKU has no record there). -/
theorem monthly_series_columns_amended (moves : List MoveRow) :
    List.Sorted (· ≤ ·) (colsOf moves)
    ∧ (colsOf moves).Nodup
    ∧ (∀ m ∈ moves, m.month ∈ colsOf moves)
    ∧ (∀ x : ℤ, x ∈ colsOf moves ↔ ∃ c ∈ keysSorted moves,
        minMonth (monthsOf moves c) ≤ x ∧ x ≤ maxMonth (monthsOf moves c))
    ∧ (∀ code : String, (seriesOf moves code).length = (colsOf moves).length)
    ∧ (∀ (code : String) (i : ℕ) (x : ℤ), (colsOf moves)[i]? = some x →
        (seriesOf moves code)[i]? = some (((moves.filter
          (fun mv => mv.itemcode == code && mv.month == x)).map
            (fun mv => mv.qty)).sum)) := by
  refine ⟨?_, ?_, ?_, fun x => mem_colsOf, ?_, ?_⟩
  · unfold colsOf
    exact List.sorted_insertionSort _ _
  · unfold colsOf
    exact (List.perm_insertionSort _ _).nodup_iff.mpr (List.nodup_dedup _)
  · intro m hm
    rw [mem_colsOf]
    have hmem : m.month ∈ monthsOf moves m.itemcode := by
      unfold monthsOf
      exact List.mem_map_of_mem _ (List.mem_filter.mpr ⟨hm, by simp⟩)
    exact ⟨m.itemcode, mem_keysSorted.mpr ⟨m, hm, rfl⟩,
      minMonth_le_of_mem _ _ hmem, le_maxMonth_of_mem _ _ hmem⟩
  · intro code
    simp [seriesOf]
  · intro code i x h
    simp [seriesOf, List.getElem?_map, h, mensVal]

/-- C9 counterexample: with records of SKU A in months 0 and 2 and of SKU B in
month 5, the column index is `[0, 1, 2, 5]` — it contains the unobserved
month 1 (so it is not the union of observed months `[0, 2, 5]`) and misses
month 3 (so it is not the dense global range either). -/
theorem monthly_series_columns_cex :
    colsOf [⟨"A", 1, 0⟩, ⟨"A", 1, 2⟩, ⟨"B", 1, 5⟩] = [0, 1, 2, 5]
    ∧ specGlobalMonths [⟨"A", 1, 0⟩, ⟨"A", 1, 2⟩, ⟨"B", 1, 5⟩] = [0, 2, 5]
    ∧ (1 : ℤ) ∉ (([⟨"A", 1, 0⟩, ⟨"A", 1, 2⟩, ⟨"B", 1, 5⟩] : List MoveRow).map
        (fun m => m.month))
    ∧ (3 : ℤ) ∉ colsOf [⟨"A", 1, 0⟩, ⟨"A", 1, 2⟩, ⟨"B", 1, 5⟩] := by
  have hAB : ("A" : String) ≤ "B" := by
    rw [String.le_iff_toList_le]
    decide
  have hkeys : keysSorted [⟨"A", 1, 0⟩, ⟨"A", 1, 2⟩, ⟨"B", 1, 5⟩] = ["A", "B"] := by
    have hd : ((["A", "A", "B"] : List String).dedup) = ["A", "B"] := by decide
    have hs : List.insertionSort (· ≤ ·) (["A", "B"] : List String) = ["A", "B"] := by
      simp only [List.insertionSort, List.orderedInsert, if_pos hAB]
    have hmap : ([⟨"A", 1, 0⟩, ⟨"A", 1, 2⟩, ⟨"B", 1, 5⟩] : List MoveRow).map
        (fun m => m.itemcode) = ["A", "A", "B"] := rfl
    unfold keysSorted
    rw [hmap, hd, hs]
  have h1 : colsOf [⟨"A", 1, 0⟩, ⟨"A", 1, 2⟩, ⟨"B", 1, 5⟩] = [0, 1, 2, 5] := by
    unfold colsOf
    rw [hkeys]
    decide
  refine ⟨h1, by decide, by decide, ?_⟩
  rw [h1]
  decide

instance : IsTotal (String × ℚ) (fun p q => q.2 ≤ p.2) :=
  ⟨fun a b => le_total b.2 a.2⟩

instance : IsTrans (String × ℚ) (fun p q => q.2 ≤ p.2) :=
  ⟨fun _ _ _ h1 h2 => le_trans h2 h1⟩

/-- Membership in the aggregated value table. -/
lemma mem_aggList {prices : List PriceRow} {moves : List MoveRow} {p : String × ℚ} :
    p ∈ aggList prices moves
      ↔ ∃ c ∈ keysSorted moves, (c, valorOf prices moves c) = p := by
  unfold aggList sortValDesc
  rw [List.mem_insertionSort, List.mem_map]

/-- A merged unit price is never negative. -/
lemma priceOf_nonneg (prices : List PriceRow) (code : String) :
    0 ≤ priceOf prices code := by
  unfold priceOf
  cases h : prices.find? (fun p => p.itemcode == code) with
  | none => norm_num
  | some p => exact le_max_right _ _

/-- A per-SKU value is nonnegative when all quantities are. -/
lemma valorOf_nonneg (prices : List PriceRow) (moves : List MoveRow) (code : String)
    (hq : ∀ m ∈ moves, 0 ≤ m.qty) : 0 ≤ valorOf prices moves code := by
  refine List.sum_nonneg ?_
  intro x hx
  obtain ⟨m, hm, rfl⟩ := List.mem_map.mp hx
  exact mul_nonneg (hq m (List.mem_of_mem_filter hm)) (priceOf_nonneg _ _)

/-- The aggregated value table is sorted descending by value. -/
lemma aggList_sorted (prices : List PriceRow) (moves : List MoveRow) :
    List.Sorted (fun p q : String × ℚ => q.2 ≤ p.2) (aggList prices moves) := by
  unfold aggList sortValDesc
  exact List.sorted_insertionSort _ _

/-- The pct column at an index is the running cumulative sum over the
remaining list divided by the total (or 0 for a nonpositive total). -/
lemma pctEntries_getElem (total : ℚ) (l : List (String × ℚ)) :
    ∀ (acc : ℚ) (i : ℕ) (e : String × ℚ), (pctEntries total acc l)[i]? = some e →
      e.2 = if 0 < total
        then (acc + ((l.take (i + 1)).map (fun p => p.2)).sum) / total
        else 0 := by
  induction l with
  | nil =>
      intro acc i e h
      simp [pctEntries] at h
  | cons p rest ih =>
      intro acc i e h
      cases i with
      | zero =>
          simp only [pctEntries, List.getElem?_cons_zero] at h
          obtain rfl := Option.some.inj h
          simp
      | succ i =>
          simp only [pctEntries, List.getElem?_cons_succ] at h
          have h2 := ih (acc + p.2) i e h
          rw [h2]
          by_cases ht : 0 < total
          · rw [if_pos ht, if_pos ht, List.take_succ_cons, List.map_cons, List.sum_cons]
            ring_nf
          · rw [if_neg ht, if_neg ht]

/-- One row of the classified table: its class is the cut of its pct, and its
pct is the cumulative value share. -/
lemma abcTable_getElem (prices : List PriceRow) (moves : List MoveRow) (i : ℕ)
    (E : String × ℚ × String) (h : (abcTable prices moves)[i]? = some E) :
    E.2.2 = abcClass E.2.1
    ∧ E.2.1 = (if 0 < total_valor prices moves
        then (((aggList prices moves).take (i + 1)).map (fun p => p.2)).sum
          / total_valor prices moves
        else 0) := by
  unfold abcTable at h
  rw [List.getElem?_map] at h
  cases he : (pctEntries (total_valor prices moves) 0 (aggList prices moves))[i]? with
  | none => rw [he] at h; simp at h
  | some e =>
      rw [he] at h
      simp only [Option.map_some'] at h
      obtain rfl := Option.some.inj h
      have hf := pctEntries_getElem _ _ 0 i e he
      simp only [zero_add] at hf
      exact ⟨rfl, hf⟩

/-- Every pct value lies in `[0, 1]` when all quantities are nonnegative. -/
lemma pct_bounds (prices : List PriceRow) (moves : List MoveRow)
    (hq : ∀ m ∈ moves, 0 ≤ m.qty) (i : ℕ) (E : String × ℚ × String)
    (h : (abcTable prices moves)[i]? = some E) : 0 ≤ E.2.1 ∧ E.2.1 ≤ 1 := by
  obtain ⟨-, hpct⟩ := abcTable_getElem _ _ _ _ h
  have hvals : ∀ p ∈ aggList prices moves, 0 ≤ p.2 := by
    intro p hp
    obtain ⟨c, hc, rfl⟩ := mem_aggList.mp hp
    exact valorOf_nonneg prices moves c hq
  by_cases ht : 0 < total_valor prices moves
  · rw [hpct, if_pos ht]
    have h0 : 0 ≤ (((aggList prices moves).take (i + 1)).map (fun p => p.2)).sum := by
      refine List.sum_nonneg ?_
      intro x hx
      obtain ⟨p, hp, rfl⟩ := List.mem_map.mp hx
      exact hvals p (List.mem_of_mem_take hp)
    have hd : 0 ≤ (((aggList prices moves).drop (i + 1)).map (fun p => p.2)).sum := by
      refine List.sum_nonneg ?_
      intro x hx
      obtain ⟨p, hp, rfl⟩ := List.mem_map.mp hx
      exact hvals p (List.mem_of_mem_drop hp)
    have hsplit : (((aggList prices moves).take (i + 1)).map (fun p => p.2)).sum
        + (((aggList prices moves).drop (i + 1)).map (fun p => p.2)).sum
        = total_valor prices moves := by
      unfold total_valor
      rw [← List.sum_append, ← List.map_append, List.take_append_drop]
    exact ⟨div_nonneg h0 ht.le, by rw [div_le_one ht]; linarith⟩
  · rw [hpct, if_neg ht]
    norm_num

/-- The cut assigns `A` exactly on `[0, 0.80]`. -/
lemma abcClass_eq_A_iff {p : ℚ} (h0 : 0 ≤ p) (h1 : p ≤ 1) :
    abcClass p = "A" ↔ p ≤ 0.80 := by
  have hp : ¬ p < 0 := not_lt.mpr h0
  unfold abcClass ABC_CUTS
  split_ifs <;> simp_all

/-- The cut assigns `B` exactly on `(0.80, 0.95]`. -/
lemma abcClass_eq_B_iff {p : ℚ} (h0 : 0 ≤ p) (h1 : p ≤ 1) :
    abcClass p = "B" ↔ 0.80 < p ∧ p ≤ 0.95 := by
  have hp : ¬ p < 0 := not_lt.mpr h0
  unfold abcClass ABC_CUTS
  split_ifs <;> simp_all

/-- The cut assigns `C` exactly on `(0.95, 1]`. -/
lemma abcClass_eq_C_iff {p : ℚ} (h0 : 0 ≤ p) (h1 : p ≤ 1) :
    abcClass p = "C" ↔ 0.95 < p := by
  have hp : ¬ p < 0 := not_lt.mpr h0
  unfold abcClass ABC_CUTS
  split_ifs <;> simp_all
  linarith

/-- C1: each SKU's value is the sum of quantity times merged unit price over
its records (price defaulting to 1.0 for a SKU absent from the price table),
the aggregated table is sorted descending by value, each pct is the cumulative
value divided by the total (0 for every SKU when the total is 0), and the ABC
class is determined by pct alone: A iff pct in `[0, 0.80]`, B iff
`(0.80, 0.95]`, C iff `(0.95, 1]` — so no SKU with pct at most 0.80 is
classified B or C. -/
theorem abc_classification_spec (prices : List PriceRow) (moves : List MoveRow)
    (hq : ∀ m ∈ moves, 0 ≤ m.qty) :
    (∀ p ∈ aggList prices moves,
        p.2 = ((moves.filter (fun m => m.itemcode == p.1)).map
          (fun m => m.qty * priceOf prices m.itemcode)).sum)
    ∧ List.Sorted (fun p q : String × ℚ => q.2 ≤ p.2) (aggList prices moves)
    ∧ (∀ (i : ℕ) (E : String × ℚ × String), (abcTable prices moves)[i]? = some E →
        E.2.1 = (if 0 < total_valor prices moves
          then (((aggList prices moves).take (i + 1)).map (fun p => p.2)).sum
            / total_valor prices moves
          else 0))
    ∧ (∀ (i : ℕ) (E : String × ℚ × String), (abcTable prices moves)[i]? = some E →
        (E.2.2 = "A" ↔ 0 ≤ E.2.1 ∧ E.2.1 ≤ 0.80)
        ∧ (E.2.2 = "B" ↔ 0.80 < E.2.1 ∧ E.2.1 ≤ 0.95)
        ∧ (E.2.2 = "C" ↔ 0.95 < E.2.1 ∧ E.2.1 ≤ 1)) := by
  refine ⟨?_, aggList_sorted prices moves, ?_, ?_⟩
  · intro p hp
    obtain ⟨c, hc, rfl⟩ := mem_aggList.mp hp
    rfl
  · intro i E h
    exact (abcTable_getElem _ _ _ _ h).2
  · intro i E h
    obtain ⟨h0, h1⟩ := pct_bounds _ _ hq i E h
    obtain ⟨hcls, -⟩ := abcTable_getElem _ _ _ _ h
    rw [hcls]
    refine ⟨?_, abcClass_eq_B_iff h0 h1, ?_⟩
    · rw [abcClass_eq_A_iff h0 h1]
      exact ⟨fun hh => ⟨h0, hh⟩, fun hh => hh.2⟩
    · rw [abcClass_eq_C_iff h0 h1]
      exact ⟨fun hh => ⟨hh, h1⟩, fun hh => hh.1⟩

/-- C1 witness: the hypotheses hold at a concrete two-SKU input and the
classification theorem applies there. -/
theorem abc_classification_spec_witness :
    (∀ m ∈ ([⟨"S1", 9000, 0⟩, ⟨"S2", 1000, 0⟩] : List MoveRow), 0 ≤ m.qty)
    ∧ List.Sorted (fun p q : String × ℚ => q.2 ≤ p.2)
        (aggList [] [⟨"S1", 9000, 0⟩, ⟨"S2", 1000, 0⟩]) := by
  have hq : ∀ m ∈ ([⟨"S1", 9000, 0⟩, ⟨"S2", 1000, 0⟩] : List MoveRow), 0 ≤ m.qty := by
    intro m hm
    rcases List.mem_cons.mp hm with rfl | hm2
    · norm_num
    rcases List.mem_cons.mp hm2 with rfl | hm3
    · norm_num
    simp at hm3
  exact ⟨hq, (abc_classification_spec [] _ hq).2.1⟩

/-- C7 counterexample: with values 9000 and 1000 (all prices defaulting to 1),
the rank-1 SKU S1 has cumulative share 9/10 > 0.80 and the cut classifies it
B, not A. -/
theorem rank1_not_always_A_cex :
    (abcTable [] [⟨"S1", 9000, 0⟩, ⟨"S2", 1000, 0⟩])[0]?
      = some ("S1", 9/10, "B")
    ∧ ((abcTable [] [⟨"S1", 9000, 0⟩, ⟨"S2", 1000, 0⟩])[0]?).map
        (fun E => E.2.2) ≠ some "A" := by
  have hle : ("S1" : String) ≤ "S2" := by
    rw [String.le_iff_toList_le]
    decide
  have hd : ((["S1", "S2"] : List String).dedup) = ["S1", "S2"] := by decide
  have hmap : ([⟨"S1", 9000, 0⟩, ⟨"S2", 1000, 0⟩] : List MoveRow).map
      (fun m => m.itemcode) = ["S1", "S2"] := rfl
  have hk : keysSorted [⟨"S1", 9000, 0⟩, ⟨"S2", 1000, 0⟩] = ["S1", "S2"] := by
    unfold keysSorted
    rw [hmap, hd]
    simp only [List.insertionSort, List.orderedInsert, if_pos hle]
  have hv1 : valorOf [] [⟨"S1", 9000, 0⟩, ⟨"S2", 1000, 0⟩] "S1" = 9000 := by
    simp [valorOf, priceOf]
  have hv2 : valorOf [] [⟨"S1", 9000, 0⟩, ⟨"S2", 1000, 0⟩] "S2" = 1000 := by
    simp [valorOf, priceOf]
  have hagg : aggList [] [⟨"S1", 9000, 0⟩, ⟨"S2", 1000, 0⟩]
      = [("S1", 9000), ("S2", 1000)] := by
    unfold aggList
    rw [hk]
    simp only [List.map_cons, List.map_nil, hv1, hv2]
    norm_num [sortValDesc, List.insertionSort, List.orderedInsert]
  have htot : total_valor [] [⟨"S1", 9000, 0⟩, ⟨"S2", 1000, 0⟩] = 10000 := by
    unfold total_valor
    rw [hagg]
    norm_num
  have hmain : (abcTable [] [⟨"S1", 9000, 0⟩, ⟨"S2", 1000, 0⟩])[0]?
      = some ("S1", 9/10, "B") := by
    unfold abcTable
    rw [hagg, htot]
    norm_num [pctEntries, abcClass, ABC_CUTS]
  refine ⟨hmain, ?_⟩
  rw [hmain]
  decide

/-- C7 corrected: the rank-1 SKU (first in descending-value order) is
classified A exactly when its own value share — its cumulative pct — is at
most 0.80; above 0.80 it is classified B or C like any other SKU. -/
theorem rank1_abc_amended (prices : List PriceRow) (moves : List MoveRow)
    (hq : ∀ m ∈ moves, 0 ≤ m.qty) :
    ∀ E : String × ℚ × String, (abcTable prices moves)[0]? = some E →
      (E.2.2 = "A" ↔ E.2.1 ≤ 0.80) := by
  intro E h
  obtain ⟨h0, h1⟩ := pct_bounds _ _ hq 0 E h
  rw [(abcTable_getElem _ _ _ _ h).1]
  exact abcClass_eq_A_iff h0 h1

/-- C7 witness: the hypotheses of the corrected rank-1 statement hold at a
concrete two-SKU input and the theorem applies there. -/
theorem rank1_abc_amended_witness :
    (∀ m ∈ ([⟨"S1", 9000, 0⟩, ⟨"S2", 1000, 0⟩] : List MoveRow), 0 ≤ m.qty)
    ∧ (∀ E : String × ℚ × String,
        (abcTable [] [⟨"S1", 9000, 0⟩, ⟨"S2", 1000, 0⟩])[0]? = some E →
        (E.2.2 = "A" ↔ E.2.1 ≤ 0.80)) := by
  have hq : ∀ m ∈ ([⟨"S1", 9000, 0⟩, ⟨"S2", 1000, 0⟩] : List MoveRow), 0 ≤ m.qty := by
    intro m hm
    rcases List.mem_cons.mp hm with rfl | hm2
    · norm_num
    rcases List.mem_cons.mp hm2 with rfl | hm3
    · norm_num
    simp at hm3
  exact ⟨hq, rank1_abc_amended [] _ hq⟩

end AbcXyz
